import Mathlib

/-
Verification of the mongoengine-privileges repository: a shallow embedding of
src/mongoengine_privileges (privilege.py, privilegemixin.py) together with
theorems settling the specification claims about it.

Conventions of the embedding:
* ObjectId values are Nat; str applied to an ObjectId is toString.
* Python None and missing values are Option.none.
* Python set-valued permission updates (list(set(a).union(b)) and
  list(set(a).difference(b))) are rendered by membership-equivalent
  deterministic list operations, since Python set order is unspecified.
* External collaborators, that is the persistence layer reached through the
  calls to the parent save, update and delete, are modelled as emitted
  Effect values.
* Raised exceptions are modelled in two layers. The error field of an
  outcome records the raise site that was reached, carrying the arguments
  passed there. The exception a caller actually observes is computed from
  that record by observedError: every PermissionError raise site passes two
  arguments to the three-parameter constructor of exceptions.py line 18,
  whose logging line then fails on the misbound first argument, so the
  caller observes a bare AttributeError carrying neither argument.
* The outcome of an operation is the document state left in memory, the
  persistence effects delegated, and the error raised, if any.
-/

namespace MPriv

/-- Reference stored in the user field of a Privilege: a raw ObjectId, a
DBRef, or a (possibly unsaved) referenced document carrying an optional
primary key. Mirrors the cases distinguished at privilegemixin.py lines 154
to 159. -/
inductive UserRef
  | oid (id : Nat)
  | dbref (id : Nat)
  | docref (pk : Option Nat)
deriving DecidableEq

/-- Privilege (privilege.py): a principal, given as a user reference or a
group name, with the list of permission strings granted to it. -/
structure Privilege where
  user : Option UserRef
  group : Option String
  permissions : List String
deriving DecidableEq

/-- Principal argument accepted by the privilege operations: a user document,
carrying an optional primary key, or a group name. -/
inductive Principal
  | user (pk : Option Nat)
  | group (g : String)
deriving DecidableEq

/-- Authorization context of a call: the primary key of the request user
together with the group principals of that user. -/
structure Request where
  userPk : Nat
  groups : List String
deriving DecidableEq

/-- Process-wide configuration. Modelled from the spec: the flag
may_create_default read by the default may_create implementation is defined
in the package module, which is not part of src; only its value matters
here, so it is carried as a configuration value. -/
structure Config where
  mayCreateDefault : Bool
deriving DecidableEq

/-- In-memory state of a document with privileges: primary key, privilege
list, the changed fields reported by get_changed_fields, and the field names
that resolve to a truthy value through getattr. -/
structure Doc where
  pk : Option Nat
  privileges : List Privilege
  changedFields : List String
  truthyFields : List String
deriving DecidableEq

/-- Type of a may_<permission> override method: it receives the process
configuration, the document it is bound to, and the request. -/
def Override : Type := Config → Doc → Request → Bool

/-- Per-document-type data: the optional explicit permissions table from the
meta dictionary, and the table of may_<permission> methods defined by the
subclass. -/
structure DocType where
  permissions : Option (List (String × String))
  overrides : List (String × Override)

/-- Entry of the list produced by the acl property: an Allow tuple or the
final DENY_ALL marker. -/
inductive AclEntry
  | allow (key : String) (permissions : List String)
  | denyAll
deriving DecidableEq

/-- Persistence effect delegated to the external collaborator. -/
inductive Effect
  | persistSave
  | persistUpdate (field : Option String)
  | persistDelete
deriving DecidableEq

/-- Record of a raise site: permissionError carries the two arguments passed
where raise PermissionError occurs (the attempted action or field, and the
resolved permission); attributeError records a raised AttributeError. The
exception a caller observes for a record is given by observedError below,
since the PermissionError constructor itself fails before building one. -/
inductive PErr
  | permissionError (attributeName : String) (permission : Option String)
  | attributeError (msg : String)
deriving DecidableEq

/-- Exception the caller actually observes for a raise-site record. Each
raise of PermissionError (privilegemixin.py lines 80, 109, 119 and 144)
passes two arguments to the three-parameter constructor at exceptions.py
line 18, which therefore binds request to the attempted-action string; the
eager log format at line 33 then reads request.user on that string and
raises a bare AttributeError from inside the constructor, before any
PermissionError exists, so the caller observes an AttributeError carrying
neither the attempted action nor the resolved permission (the Python
message text is abstracted to a fixed string). The AttributeError raised in
get_privilege is observed unchanged. -/
def observedError : PErr → PErr
  | .permissionError _ _ => .attributeError "str object has no attribute user"
  | .attributeError m => .attributeError m

/-- Result of a guarded operation: the document state left in memory, the
persistence effects that were delegated, and the error raised, if any. -/
structure Outcome where
  doc : Doc
  effects : List Effect
  error : Option PErr
deriving DecidableEq

/-- Lookup in an association list with string keys (the dict get method). -/
def tableGet {α : Type} (k : String) : List (String × α) → Option α
  | [] => none
  | (k2, v) :: rest => if k2 = k then some v else tableGet k rest

/-- Truthiness of an optional string: None and the empty string are falsy. -/
def truthyOpt : Option String → Bool
  | none => false
  | some s => decide (s ≠ "")

/-- Deterministic rendering of list(set(a).union(b)). -/
def permUnion (a b : List String) : List String := (a ++ b).dedup

/-- Deterministic rendering of list(set(a).difference(b)). -/
def permDiff (a b : List String) : List String :=
  a.dedup.filter (fun x => !(b.contains x))

/-- Table default_permissions of PrivilegeMixin (lines 25 to 29). -/
def default_permissions : List (String × String) :=
  [("create", "create"), ("update", "update"), ("delete", "delete")]

/-- get_permission_for (privilegemixin.py lines 173 to 175). -/
def get_permission_for (dt : DocType) (name : String) : Option String :=
  tableGet name (dt.permissions.getD default_permissions)

/-- Matching test of the scan in get_privilege (line 321): the stored group
equals the principal, or the principal is a document with a truthy primary
key equal to the stored user value; the stored user value only compares
equal to a raw ObjectId. -/
def matchesPriv (p : Principal) (priv : Privilege) : Bool :=
  match p with
  | .group g => decide (priv.group = some g)
  | .user (some k) => decide (priv.user = some (UserRef.oid k))
  | .user none => false

/-- First privilege in the list matching the principal. -/
def findPriv (privs : List Privilege) (p : Principal) : Option Privilege :=
  privs.find? (matchesPriv p)

/-- get_privilege (lines 299 to 335): scan; when absent and creation is
requested, build a new privilege from the principal, raising AttributeError
when neither a truthy user nor a truthy group is available, and append it.
Returns the updated document together with the found or created privilege. -/
def get_privilege (d : Doc) (p : Principal) (create : Bool) :
    Except PErr (Doc × Option Privilege) :=
  match findPriv d.privileges p with
  | some priv => .ok (d, some priv)
  | none =>
    if create then
      let user : Option Nat := match p with | .user pk => pk | .group _ => none
      let group : Option String := match p with | .group g => some g | .user _ => none
      if user.isNone && !(truthyOpt group) then
        .error (.attributeError "Either a user or group is needed to create a Privilege")
      else
        .ok ({ d with privileges := d.privileges ++ [⟨user.map UserRef.oid, group, []⟩] },
          some ⟨user.map UserRef.oid, group, []⟩)
    else .ok (d, none)

/-- Replace the first privilege matching the principal, rendering the
in-place mutation of the aliased privilege object returned by
get_privilege. -/
def modFirst (p : Principal) (f : Privilege → Privilege) :
    List Privilege → List Privilege
  | [] => []
  | pr :: rest => if matchesPriv p pr then f pr :: rest else pr :: modFirst p f rest

/-- add_permissions (lines 267 to 280): get_privilege with creation, then
add on the returned privilege. -/
def add_permissions (d : Doc) (perms : List String) (p : Principal) :
    Except PErr Doc :=
  match get_privilege d p true with
  | .error e => .error e
  | .ok (d2, _) =>
    .ok { d2 with privileges :=
      (modFirst p (fun pr => { pr with permissions := permUnion pr.permissions perms })
        d2.privileges) }

/-- remove_permissions (lines 282 to 297): get_privilege without creation,
then remove on the privilege when present, else a no-op. -/
def remove_permissions (d : Doc) (perms : List String) (p : Principal) : Doc :=
  match findPriv d.privileges p with
  | none => d
  | some _ =>
    { d with privileges :=
      (modFirst p (fun pr => { pr with permissions := permDiff pr.permissions perms })
        d.privileges) }

/-- Raw principal computed by the acl loop body before the truthiness test. -/
inductive PrincipalVal
  | oidVal (id : Nat)
  | strVal (s : String)
deriving DecidableEq

/-- Case analysis of lines 151 to 161: a set user wins and is reduced to an
ObjectId (a document reference contributes its primary key, which can be
absent); an unset user falls back to the group. -/
def rawPrincipal (priv : Privilege) : Option PrincipalVal :=
  match priv.user with
  | some (.oid id) => some (.oidVal id)
  | some (.dbref id) => some (.oidVal id)
  | some (.docref pk) => pk.map .oidVal
  | none => priv.group.map .strVal

/-- Truthiness of the computed principal: ObjectId values are truthy, a
string is truthy when non-empty. -/
def pvTruthy : PrincipalVal → Bool
  | .oidVal _ => true
  | .strVal s => decide (s ≠ "")

/-- str applied to the computed principal. -/
def pvStr : PrincipalVal → String
  | .oidVal id => toString id
  | .strVal s => s

/-- Body of the acl loop (lines 150 to 164). -/
def aclStep (acl : List AclEntry) (priv : Privilege) : List AclEntry :=
  match rawPrincipal priv with
  | some pv =>
    if pvTruthy pv then acl ++ [AclEntry.allow (pvStr pv) priv.permissions] else acl
  | none => acl

/-- The acl property (lines 146 to 171): the loop above, then DENY_ALL. -/
def buildAcl (privs : List Privilege) : List AclEntry :=
  privs.foldl aclStep [] ++ [AclEntry.denyAll]

/-- Effective principals of a request: str of the user primary key together
with the group memberships. -/
def effectivePrincipals (req : Request) : List String :=
  toString req.userPk :: req.groups

/-- has_permission of the external ACL policy: first matching entry wins; an
Allow entry matches when its key is an effective principal and it carries
the permission; DENY_ALL matches everything and denies. -/
def hasPermission (perm : String) (req : Request) : List AclEntry → Bool
  | [] => false
  | AclEntry.allow key perms :: rest =>
    if (effectivePrincipals req).contains key && perms.contains perm then true
    else hasPermission perm req rest
  | AclEntry.denyAll :: _ => false

/-- Default may_create inherited from the mixin (lines 206 to 213): it
returns the process-wide flag may_create_default. -/
def mayCreateInherited : Override := fun cfg _ _ => cfg.mayCreateDefault

/-- Resolution of the may_<permission> attribute: the table of the subclass
first, then the may_create implementation inherited from the mixin. -/
def findOverride (dt : DocType) (p : String) : Option Override :=
  match tableGet p dt.overrides with
  | some f => some f
  | none => if p = "create" then some mayCreateInherited else none

/-- may (lines 177 to 204): an empty or absent permission passes; otherwise
a may_<permission> method decides when present, else the ACL policy decides
over the acl built from the current privileges. -/
def may (cfg : Config) (dt : DocType) (d : Doc) (req : Request) :
    Option String → Bool
  | none => true
  | some p =>
    if p = "" then true
    else
      match findOverride dt p with
      | some f => f cfg d req
      | none => hasPermission p req (buildAcl d.privileges)

/-- Tail of update (lines 115 to 119): check the resolved permission and
delegate to the external update, else raise. -/
def updateTail (cfg : Config) (dt : DocType) (d : Doc) (req : Request)
    (fieldName : Option String) (permission : Option String) : Outcome :=
  if may cfg dt d req permission then ⟨d, [Effect.persistUpdate fieldName], none⟩
  else ⟨d, [], some (.permissionError "update" permission)⟩

/-- update (lines 82 to 119). With a field name, the source builds an
AttributeError for an unresolvable field at line 102 but never raises it, so
field resolvability cannot influence the outcome; then the caller document,
defaulting to the document itself, must pass the caller permission check
whenever that permission is truthy; finally the permission configured for
the field (or for the whole document when no field is given) is checked. -/
def update (cfg : Config) (dt : DocType) (d : Doc) (req : Request)
    (fieldName : Option String) (caller : Option (DocType × Doc))
    (callerPermission : Option String) : Outcome :=
  match fieldName with
  | none => updateTail cfg dt d req none (get_permission_for dt "update")
  | some f =>
    let c := caller.getD (dt, d)
    if truthyOpt callerPermission && !(may cfg c.1 c.2 req callerPermission) then
      ⟨d, [], some (.permissionError ("update_" ++ f) callerPermission)⟩
    else updateTail cfg dt d req (some f) (get_permission_for dt f)

/-- update_privileges (lines 121 to 131): update of the privileges field
with the default caller permission, the literal string update. -/
def update_privileges (cfg : Config) (dt : DocType) (d : Doc) (req : Request)
    (caller : Option (DocType × Doc)) : Outcome :=
  update cfg dt d req (some "privileges") caller (some "update")

/-- delete (lines 133 to 144). -/
def delete (cfg : Config) (dt : DocType) (d : Doc) (req : Request) : Outcome :=
  let permission := get_permission_for dt "delete"
  if may cfg dt d req permission then ⟨d, [Effect.persistDelete], none⟩
  else ⟨d, [], some (.permissionError "delete" permission)⟩

/-- Permission used for one changed field in the save loop (lines 74 to 76):
the explicit field permission when configured, else the permission resolved
for the whole-document action. -/
def savePermFor (dt : DocType) (permission : Option String) (f : String) :
    Option String :=
  match get_permission_for dt f with
  | none => permission
  | some p => some p

/-- Loop of save over the changed fields (lines 73 to 78): each field is
updated through update with the document itself as caller; a raised error
aborts the remaining fields. -/
def saveChangedFields (cfg : Config) (dt : DocType) (d : Doc) (req : Request)
    (permission : Option String) : List String → Outcome
  | [] => ⟨d, [], none⟩
  | f :: rest =>
    let r := update cfg dt d req (some f) (some (dt, d)) (savePermFor dt permission f)
    match r.error with
    | some _ => r
    | none =>
      let r2 := saveChangedFields cfg dt r.doc req permission rest
      ⟨r2.doc, r.effects ++ r2.effects, r2.error⟩

/-- save (lines 33 to 80): resolve create for a new document and update
otherwise; on a passing check delegate to the external save; a denied
existing document falls through to per-field updates of the changed fields;
a denied new document raises. -/
def save (cfg : Config) (dt : DocType) (d : Doc) (req : Request) : Outcome :=
  let permission :=
    match d.pk with
    | none => get_permission_for dt "create"
    | some _ => get_permission_for dt "update"
  if may cfg dt d req permission then ⟨d, [Effect.persistSave], none⟩
  else
    match d.pk with
    | some _ => saveChangedFields cfg dt d req permission d.changedFields
    | none => ⟨d, [], some (.permissionError "save" permission)⟩

/-- grant (lines 215 to 230): when the update permission check passes, add
the permissions and persist through update_privileges; otherwise fall
through, returning without an error. -/
def grant (cfg : Config) (dt : DocType) (d : Doc) (req : Request)
    (perms : List String) (principal : Principal)
    (caller : Option (DocType × Doc)) : Outcome :=
  if may cfg dt d req (get_permission_for dt "update") then
    match add_permissions d perms principal with
    | .error e => ⟨d, [], some e⟩
    | .ok d2 => update_privileges cfg dt d2 req caller
  else ⟨d, [], none⟩

/-- revoke (lines 232 to 247): when the update permission check passes,
remove the permissions and persist through update_privileges; otherwise fall
through, returning without an error. -/
def revoke (cfg : Config) (dt : DocType) (d : Doc) (req : Request)
    (perms : List String) (principal : Principal)
    (caller : Option (DocType × Doc)) : Outcome :=
  if may cfg dt d req (get_permission_for dt "update") then
    update_privileges cfg dt (remove_permissions d perms principal) req caller
  else ⟨d, [], none⟩

/-- Resolvability of a field name on a document through getattr, as tested
(without effect) by the source at line 101. -/
def fieldResolvable (d : Doc) (f : String) : Bool := d.truthyFields.contains f

/-- Condition under which get_privilege can create a privilege for the
principal: a document principal with a primary key, or a non-empty group
name; otherwise the creation branch raises AttributeError. -/
def creatable : Principal → Bool
  | .user (some _) => true
  | .user none => false
  | .group g => decide (g ≠ "")

/-- Fixture: configuration with create allowed by default. -/
def cfgTrue : Config := { mayCreateDefault := true }

/-- Fixture: document type without an explicit permissions table and without
subclass overrides. -/
def dtPlain : DocType := { permissions := none, overrides := [] }

/-- Fixture: request of the user with primary key 10 and no groups. -/
def reqA : Request := { userPk := 10, groups := [] }

/-- Fixture: request of a user holding no grant on the documents below. -/
def reqStranger : Request := { userPk := 99, groups := [] }

/-- Fixture: persisted document granting update to user 10. -/
def dRev : Doc :=
  { pk := some 1, privileges := [⟨some (UserRef.oid 10), none, ["update"]⟩],
    changedFields := [], truthyFields := [] }

/-- Fixture: new document with no privileges. -/
def dEmpty : Doc :=
  { pk := none, privileges := [], changedFields := [], truthyFields := [] }

/-- Fixture: an override that always allows. -/
def ovTrue : Override := fun _ _ _ => true

/-- Fixture: an override that always denies. -/
def ovFalse : Override := fun _ _ _ => false

/-- Fixture: type whose table maps create to create and whose subclass
defines may_create always allowing. -/
def dtOv : DocType :=
  { permissions := some [("create", "create"), ("update", "update")],
    overrides := [("create", ovTrue)] }

/-- Fixture: type without an explicit table whose subclass may_create always
denies, so that every permission check used by the witness denies. -/
def dtDeny : DocType := { permissions := none, overrides := [("create", ovFalse)] }

/-- Fixture: new document carrying an unrelated grant, to exercise override
decisions that must ignore the privilege list. -/
def dAclFull : Doc :=
  { pk := none, privileges := [⟨some (UserRef.oid 99), none, ["x"]⟩],
    changedFields := [], truthyFields := [] }

/-- Fixture: type with explicit per-field permissions for fields f1 and f2. -/
def dtC3 : DocType :=
  { permissions :=
      some [("create", "create"), ("update", "update"), ("f1", "pf1"), ("f2", "pf2")],
    overrides := [] }

/-- Fixture: persisted document with two changed fields whose principal holds
only the permission configured for the first of them. -/
def dC3 : Doc :=
  { pk := some 1, privileges := [⟨some (UserRef.oid 10), none, ["pf1"]⟩],
    changedFields := ["f1", "f2"], truthyFields := ["f1", "f2"] }

/-- Fixture: type with an explicit table that renames the update permission. -/
def dtC4 : DocType := { permissions := some [("update", "u2")], overrides := [] }

/-- Fixture: persisted document whose single changed field has no explicit
permission entry in the table of dtC4. -/
def dC4 : Doc :=
  { pk := some 1, privileges := [], changedFields := ["name"], truthyFields := ["name"] }

/-- Fixture: persisted document granting update to user 10, with a field
that does not resolve, for the unresolvable-field scenario. -/
def d8 : Doc :=
  { pk := some 1, privileges := [⟨some (UserRef.oid 10), none, ["update"]⟩],
    changedFields := [], truthyFields := ["name"] }

/-- Fixture: a user grant and a group grant, for the acl round trip. -/
def privsW : List Privilege :=
  [⟨some (UserRef.oid 7), none, ["update", "view"]⟩, ⟨none, some "g:team", ["view"]⟩]

/-- Contribution of one privilege to the acl, read off the loop body of the
acl property: the computed principal when truthy yields an Allow entry. -/
def codeAclEntry (priv : Privilege) : Option AclEntry :=
  match rawPrincipal priv with
  | some pv => if pvTruthy pv then some (.allow (pvStr pv) priv.permissions) else none
  | none => none

/-- Resolvable persisted identity of a user reference in canonical string
form, as the claim describes it. -/
def userIdentity : UserRef → Option String
  | .oid id => some (toString id)
  | .dbref id => some (toString id)
  | .docref pk => pk.map toString

/-- Entry of the acl as the claim describes it (refinement side, written
from the words of the claim and of section 4.2 of the spec): an Allow entry
keyed by the resolvable user identity when present, else by the group name
when set, carrying the exact permission set; a privilege whose user
reference has no resolvable identity and whose group is unset is skipped. -/
def claimAclEntry (priv : Privilege) : Option AclEntry :=
  match priv.user.bind userIdentity with
  | some k => some (.allow k priv.permissions)
  | none => priv.group.map (fun g => .allow g priv.permissions)

/-- C9: may returns true immediately for an absent permission and for the
empty permission, for every configuration, document type, document and
request, consulting neither an override nor the acl. -/
theorem c9_theorem : ∀ (cfg : Config) (dt : DocType) (d : Doc) (req : Request),
    may cfg dt d req none = true ∧ may cfg dt d req (some "") = true := by
  intro cfg dt d req
  exact ⟨rfl, by simp [may]⟩

/-- C10: when the subclass defines no may_create of its own, may for the
permission create returns the process-wide flag may_create_default through
the inherited override, independently of the privilege list of the
document. -/
theorem c10_theorem (cfg : Config) (dt : DocType) (d : Doc) (req : Request)
    (h : tableGet "create" dt.overrides = (none : Option Override)) :
    may cfg dt d req (some "create") = cfg.mayCreateDefault := by
  simp [may, findOverride, h, mayCreateInherited]

/-- Witness for C10 at a concrete input. -/
theorem c10_witness :
    may cfgTrue dtPlain dEmpty reqA (some "create") = cfgTrue.mayCreateDefault :=
  c10_theorem cfgTrue dtPlain dEmpty reqA rfl

/-- C5: a defined may_<permission> override fully decides may for that
permission, bypassing the acl; in particular a guarded create of a new
document whose type maps create to the permission create succeeds or raises
exactly according to the override, whatever the privilege list contains. -/
theorem c5_theorem (cfg : Config) (dt : DocType) (d : Doc) (req : Request) :
    (∀ (P : String) (f : Override), P ≠ "" → findOverride dt P = some f →
      may cfg dt d req (some P) = f cfg d req) ∧
    (∀ f : Override, get_permission_for dt "create" = some "create" →
      findOverride dt "create" = some f → d.pk = none →
      save cfg dt d req =
        if f cfg d req then ⟨d, [Effect.persistSave], none⟩
        else ⟨d, [], some (.permissionError "save" (some "create"))⟩) := by
  constructor
  · intro P f hP hf
    simp [may, hP, hf]
  · intro f hperm hf hpk
    have hmay : may cfg dt d req (some "create") = f cfg d req := by
      simp [may, hf]
    simp only [save, hpk, hperm, hmay]

/-- Witness for C5 at a concrete input with an always-allowing override. -/
theorem c5_witness :
    may cfgTrue dtOv dAclFull reqA (some "create") = ovTrue cfgTrue dAclFull reqA ∧
    save cfgTrue dtOv dAclFull reqA = ⟨dAclFull, [Effect.persistSave], none⟩ := by
  have h := c5_theorem cfgTrue dtOv dAclFull reqA
  refine ⟨h.1 "create" ovTrue (by decide) rfl, ?_⟩
  have h2 := h.2 ovTrue rfl rfl rfl
  rw [h2]
  rfl

/-- Helper: the save loop over a single changed field is exactly one guarded
update of that field with the document itself as caller. -/
theorem saveChangedFields_single (cfg : Config) (dt : DocType) (d : Doc)
    (req : Request) (perm : Option String) (f : String) :
    saveChangedFields cfg dt d req perm [f] =
      update cfg dt d req (some f) (some (dt, d)) (savePermFor dt perm f) := by
  unfold saveChangedFields
  rcases h : update cfg dt d req (some f) (some (dt, d)) (savePermFor dt perm f)
    with ⟨ud, ue, uerr⟩
  cases uerr <;> simp [saveChangedFields, h]

/-- C4: for a type with an explicit permissions table, a field absent from
the table and distinct from the built-in actions resolves, in the save loop,
to exactly the permission resolved for update; accordingly an existing
document denied the whole-document update whose single changed field is such
a field is saved by delegating to update guarded by that very permission. -/
theorem c4_theorem (dt : DocType) (tbl : List (String × String)) (f : String)
    (hmap : dt.permissions = some tbl) (hf : tableGet f tbl = none)
    (_hnb : f ≠ "create" ∧ f ≠ "update" ∧ f ≠ "delete") :
    savePermFor dt (get_permission_for dt "update") f = get_permission_for dt "update" ∧
    ∀ (cfg : Config) (d : Doc) (req : Request) (k : Nat), d.pk = some k →
      d.changedFields = [f] →
      may cfg dt d req (get_permission_for dt "update") = false →
      save cfg dt d req =
        update cfg dt d req (some f) (some (dt, d)) (get_permission_for dt "update") := by
  have hgf : get_permission_for dt f = none := by
    simp [get_permission_for, hmap, hf]
  have hsp : savePermFor dt (get_permission_for dt "update") f =
      get_permission_for dt "update" := by
    simp [savePermFor, hgf]
  refine ⟨hsp, ?_⟩
  intro cfg d req k hpk hch hden
  simp only [save, hpk, hden, hch]
  simp only [Bool.false_eq_true, if_false]
  rw [saveChangedFields_single, hsp]

/-- Witness for C4 at a concrete input with a renamed update permission. -/
theorem c4_witness :
    savePermFor dtC4 (get_permission_for dtC4 "update") "name" =
      get_permission_for dtC4 "update" ∧
    save cfgTrue dtC4 dC4 reqStranger =
      update cfgTrue dtC4 dC4 reqStranger (some "name") (some (dtC4, dC4))
        (get_permission_for dtC4 "update") := by
  have h := c4_theorem dtC4 [("update", "u2")] "name" rfl (by decide)
    ⟨by decide, by decide, by decide⟩
  exact ⟨h.1, h.2 cfgTrue dC4 reqStranger 1 rfl rfl (by decide)⟩

/-- C1 corrected: a denied save of a new document, a denied delete and a
denied update all abort by reaching their raise site with the attempted
action or field and the resolved permission as arguments, so these denials
are never silently swallowed; but the exception the caller observes is not
a structured one: for every such denial it is the same bare AttributeError
from inside the failing PermissionError constructor, carrying neither the
action nor the permission. A denied grant or revoke does not raise at all:
it falls through and returns without an error and without mutating
anything. -/
theorem c1_theorem (cfg : Config) (dt : DocType) (d : Doc) (req : Request) :
    (d.pk = none → may cfg dt d req (get_permission_for dt "create") = false →
      save cfg dt d req =
        ⟨d, [], some (.permissionError "save" (get_permission_for dt "create"))⟩ ∧
      (save cfg dt d req).error.map observedError =
        some (.attributeError "str object has no attribute user")) ∧
    (may cfg dt d req (get_permission_for dt "delete") = false →
      delete cfg dt d req =
        ⟨d, [], some (.permissionError "delete" (get_permission_for dt "delete"))⟩ ∧
      (delete cfg dt d req).error.map observedError =
        some (.attributeError "str object has no attribute user")) ∧
    (∀ (caller : Option (DocType × Doc)) (cp : Option String),
      may cfg dt d req (get_permission_for dt "update") = false →
      update cfg dt d req none caller cp =
        ⟨d, [], some (.permissionError "update" (get_permission_for dt "update"))⟩ ∧
      (update cfg dt d req none caller cp).error.map observedError =
        some (.attributeError "str object has no attribute user")) ∧
    (∀ (fn : String) (caller : DocType × Doc) (cp : String), cp ≠ "" →
      may cfg caller.1 caller.2 req (some cp) = false →
      update cfg dt d req (some fn) (some caller) (some cp) =
        ⟨d, [], some (.permissionError ("update_" ++ fn) (some cp))⟩ ∧
      (update cfg dt d req (some fn) (some caller) (some cp)).error.map observedError =
        some (.attributeError "str object has no attribute user")) ∧
    (∀ (perms : List String) (principal : Principal)
        (caller : Option (DocType × Doc)),
      may cfg dt d req (get_permission_for dt "update") = false →
      grant cfg dt d req perms principal caller = ⟨d, [], none⟩ ∧
      revoke cfg dt d req perms principal caller = ⟨d, [], none⟩) := by
  refine ⟨?_, ?_, ?_, ?_, ?_⟩
  · intro hpk hden
    have h1 : save cfg dt d req =
        ⟨d, [], some (.permissionError "save" (get_permission_for dt "create"))⟩ := by
      simp [save, hpk, hden]
    exact ⟨h1, by rw [h1]; rfl⟩
  · intro hden
    have h1 : delete cfg dt d req =
        ⟨d, [], some (.permissionError "delete" (get_permission_for dt "delete"))⟩ := by
      simp [delete, hden]
    exact ⟨h1, by rw [h1]; rfl⟩
  · intro caller cp hden
    have h1 : update cfg dt d req none caller cp =
        ⟨d, [], some (.permissionError "update" (get_permission_for dt "update"))⟩ := by
      simp [update, updateTail, hden]
    exact ⟨h1, by rw [h1]; rfl⟩
  · intro fn caller cp hcp hden
    have h1 : update cfg dt d req (some fn) (some caller) (some cp) =
        ⟨d, [], some (.permissionError ("update_" ++ fn) (some cp))⟩ := by
      simp [update, truthyOpt, hcp, hden]
    exact ⟨h1, by rw [h1]; rfl⟩
  · intro perms principal caller hden
    exact ⟨by simp [grant, hden], by simp [revoke, hden]⟩

/-- C1 counterexample: a concrete denied grant and a concrete denied revoke
return normally, with no error, no persistence effect and no mutation; and
at the same input a concrete denied update does abort, but the exception
observed by its caller is the bare AttributeError from the failing
PermissionError constructor, naming neither the attempted action nor the
resolved permission. Both refute the claimed structured, never-swallowed
denial contract. -/
theorem c1_counterexample :
    may cfgTrue dtPlain dRev reqStranger (some "update") = false ∧
    grant cfgTrue dtPlain dRev reqStranger ["view"] (Principal.user (some 99)) none =
      ⟨dRev, [], none⟩ ∧
    revoke cfgTrue dtPlain dRev reqStranger ["update"] (Principal.user (some 10)) none =
      ⟨dRev, [], none⟩ ∧
    (update cfgTrue dtPlain dRev reqStranger none none none).error.map observedError =
      some (PErr.attributeError "str object has no attribute user") := by
  decide

/-- Witness for the corrected C1 at concrete inputs on which every permission
check denies. -/
theorem c1_witness :
    (save cfgTrue dtDeny dEmpty reqA =
        ⟨dEmpty, [], some (PErr.permissionError "save" (some "create"))⟩ ∧
      (save cfgTrue dtDeny dEmpty reqA).error.map observedError =
        some (PErr.attributeError "str object has no attribute user")) ∧
    (delete cfgTrue dtDeny dEmpty reqA =
        ⟨dEmpty, [], some (PErr.permissionError "delete" (some "delete"))⟩ ∧
      (delete cfgTrue dtDeny dEmpty reqA).error.map observedError =
        some (PErr.attributeError "str object has no attribute user")) ∧
    (update cfgTrue dtDeny dEmpty reqA none none none =
        ⟨dEmpty, [], some (PErr.permissionError "update" (some "update"))⟩ ∧
      (update cfgTrue dtDeny dEmpty reqA none none none).error.map observedError =
        some (PErr.attributeError "str object has no attribute user")) ∧
    (update cfgTrue dtDeny dEmpty reqA (some "name") (some (dtDeny, dEmpty))
          (some "update") =
        ⟨dEmpty, [], some (PErr.permissionError "update_name" (some "update"))⟩ ∧
      (update cfgTrue dtDeny dEmpty reqA (some "name") (some (dtDeny, dEmpty))
          (some "update")).error.map observedError =
        some (PErr.attributeError "str object has no attribute user")) ∧
    grant cfgTrue dtDeny dEmpty reqA ["x"] (Principal.user (some 1)) none =
      ⟨dEmpty, [], none⟩ ∧
    revoke cfgTrue dtDeny dEmpty reqA ["x"] (Principal.user (some 1)) none =
      ⟨dEmpty, [], none⟩ := by
  have h := c1_theorem cfgTrue dtDeny dEmpty reqA
  refine ⟨h.1 rfl (by decide), h.2.1 (by decide), h.2.2.1 none none (by decide),
    ?_, ?_, ?_⟩
  · exact h.2.2.2.1 "name" (dtDeny, dEmpty) "update" (by decide) (by decide)
  · exact (h.2.2.2.2 ["x"] (Principal.user (some 1)) none (by decide)).1
  · exact (h.2.2.2.2 ["x"] (Principal.user (some 1)) none (by decide)).2

/-- C2: at the failing input the pre-mutation update check passes, the
permission is removed from the privilege in memory, and the persisting step
update_privileges then re-checks the literal update permission against the
already mutated privileges, raising instead of persisting: the revoke of the
very permission that allowed it does not complete. -/
theorem c2_failing :
    may cfgTrue dtPlain dRev reqA (some "update") = true ∧
    revoke cfgTrue dtPlain dRev reqA ["update"] (Principal.user (some 10)) none =
      ⟨{ dRev with privileges := [⟨some (UserRef.oid 10), none, []⟩] }, [],
        some (PErr.permissionError "update_privileges" (some "update"))⟩ := by
  decide

/-- C8: the field existence guard of update has no effect, because the
source constructs the AttributeError without raising it; at the failing
input the requested field does not resolve on the document and the
operation nevertheless proceeds through the permission check to
persistence. -/
theorem c8_failing :
    fieldResolvable d8 "bogus" = false ∧
    update cfgTrue dtPlain d8 reqA (some "bogus") none (some "update") =
      ⟨d8, [Effect.persistUpdate (some "bogus")], none⟩ := by
  decide

/-- Helper: every call to update leaves the in-memory document unchanged and
either delegates exactly one persistence effect without an error, or raises
with no effect. -/
theorem update_shape (cfg : Config) (dt : DocType) (d : Doc) (req : Request)
    (fn : Option String) (caller : Option (DocType × Doc)) (cp : Option String) :
    update cfg dt d req fn caller cp = ⟨d, [Effect.persistUpdate fn], none⟩ ∨
    ∃ e, update cfg dt d req fn caller cp = ⟨d, [], some e⟩ := by
  cases fn with
  | none =>
    simp only [update, updateTail]
    split
    · exact Or.inl rfl
    · exact Or.inr ⟨_, rfl⟩
  | some f =>
    simp only [update, updateTail]
    split
    · exact Or.inr ⟨_, rfl⟩
    · split
      · exact Or.inl rfl
      · exact Or.inr ⟨_, rfl⟩

/-- C3 corrected: in the save loop the changed fields are processed in
order; every field before the first denied one is individually persisted,
and the first denial raises and aborts the remaining fields, so a single
guarded call can leave a partially applied update behind. -/
theorem c3_theorem (cfg : Config) (dt : DocType) (d : Doc) (req : Request)
    (perm : Option String) (pre : List String) (f : String) (post : List String)
    (hpre : ∀ g ∈ pre,
      (update cfg dt d req (some g) (some (dt, d)) (savePermFor dt perm g)).error = none)
    (hf : (update cfg dt d req (some f) (some (dt, d))
      (savePermFor dt perm f)).error.isSome = true) :
    saveChangedFields cfg dt d req perm (pre ++ f :: post) =
      ⟨d, pre.map (fun g => Effect.persistUpdate (some g)),
        (update cfg dt d req (some f) (some (dt, d)) (savePermFor dt perm f)).error⟩ := by
  induction pre with
  | nil =>
    rcases update_shape cfg dt d req (some f) (some (dt, d)) (savePermFor dt perm f)
      with hok | ⟨e, herr⟩
    · rw [hok] at hf
      simp at hf
    · simp only [List.nil_append, List.map_nil, saveChangedFields, herr]
  | cons g rest ih =>
    have hg := hpre g (List.mem_cons_self g rest)
    have hrest : ∀ x ∈ rest,
        (update cfg dt d req (some x) (some (dt, d)) (savePermFor dt perm x)).error = none :=
      fun x hx => hpre x (List.mem_cons_of_mem g hx)
    rcases update_shape cfg dt d req (some g) (some (dt, d)) (savePermFor dt perm g)
      with hok | ⟨e, herr⟩
    · simp only [List.cons_append, List.map_cons, saveChangedFields, hok]
      simp only [List.append_eq]
      rw [ih hrest]
      simp only [List.nil_append]
    · rw [herr] at hg
      simp at hg

/-- C3 counterexample: a concrete denied per-field save raises for the
second changed field after having already persisted the first one, so a
denial does not prevent every field from being persisted. -/
theorem c3_counterexample :
    (save cfgTrue dtC3 dC3 reqA).error =
      some (PErr.permissionError "update_f2" (some "pf2")) ∧
    (save cfgTrue dtC3 dC3 reqA).effects = [Effect.persistUpdate (some "f1")] := by
  decide

/-- Witness for the corrected C3 at a concrete input. -/
theorem c3_witness :
    saveChangedFields cfgTrue dtC3 dC3 reqA (some "update") (["f1"] ++ "f2" :: []) =
      ⟨dC3, ["f1"].map (fun g => Effect.persistUpdate (some g)),
        (update cfgTrue dtC3 dC3 reqA (some "f2") (some (dtC3, dC3))
          (savePermFor dtC3 (some "update") "f2")).error⟩ :=
  c3_theorem cfgTrue dtC3 dC3 reqA (some "update") ["f1"] "f2" [] (by decide) (by decide)

/-- Helper: one step of the acl loop appends the contribution of the
privilege. -/
theorem aclStep_eq (acc : List AclEntry) (pr : Privilege) :
    aclStep acc pr = acc ++ (codeAclEntry pr).toList := by
  unfold aclStep codeAclEntry
  cases rawPrincipal pr with
  | none => simp
  | some pv =>
    by_cases h : pvTruthy pv = true <;> simp [h]

/-- Helper: the acl loop is the filterMap of the per-privilege
contribution. -/
theorem foldl_aclStep (l : List Privilege) (acc : List AclEntry) :
    l.foldl aclStep acc = acc ++ l.filterMap codeAclEntry := by
  induction l generalizing acc with
  | nil => simp
  | cons pr rest ih =>
    rw [List.foldl_cons, ih, aclStep_eq, List.filterMap_cons]
    cases h : codeAclEntry pr with
    | none => simp [h]
    | some a => simp [h]

/-- Helper: filterMap only depends on the values of the function on the
members of the list. -/
theorem filterMap_congr_mem {α β : Type} (l : List α) (f g : α → Option β)
    (h : ∀ a ∈ l, f a = g a) : l.filterMap f = l.filterMap g := by
  induction l with
  | nil => rfl
  | cons a t ih =>
    have ht := ih (fun x hx => h x (List.mem_cons_of_mem a hx))
    rw [List.filterMap_cons, List.filterMap_cons, h a (List.mem_cons_self a t), ht]

/-- Helper: on a privilege carrying at most one principal and no empty group
name, the loop contribution coincides with the entry the claim describes. -/
theorem codeAclEntry_eq_claim (pr : Privilege)
    (h1 : ¬(pr.user.isSome ∧ pr.group.isSome))
    (h2 : pr.group ≠ some "") :
    codeAclEntry pr = claimAclEntry pr := by
  cases hu : pr.user with
  | some u =>
    cases u with
    | oid id => simp [codeAclEntry, claimAclEntry, rawPrincipal, userIdentity, hu, pvTruthy, pvStr]
    | dbref id => simp [codeAclEntry, claimAclEntry, rawPrincipal, userIdentity, hu, pvTruthy, pvStr]
    | docref pk =>
      cases pk with
      | some k => simp [codeAclEntry, claimAclEntry, rawPrincipal, userIdentity, hu, pvTruthy, pvStr]
      | none =>
        have hg : pr.group = none := by
          cases hgr : pr.group with
          | none => rfl
          | some g => exact absurd ⟨by simp [hu], by simp [hgr]⟩ h1
        simp [codeAclEntry, claimAclEntry, rawPrincipal, userIdentity, hu, hg]
  | none =>
    cases hgr : pr.group with
    | none => simp [codeAclEntry, claimAclEntry, rawPrincipal, hu, hgr]
    | some g =>
      have hgne : g ≠ "" := by
        intro he
        exact h2 (by rw [hgr, he])
      simp [codeAclEntry, claimAclEntry, rawPrincipal, hu, hgr, pvTruthy, pvStr, hgne]

/-- Helper: the entry the claim describes is never the DENY_ALL marker. -/
theorem claimAclEntry_allow (pr : Privilege) (e : AclEntry)
    (h : claimAclEntry pr = some e) : e ≠ AclEntry.denyAll := by
  unfold claimAclEntry at h
  cases hub : pr.user.bind userIdentity with
  | some k =>
    rw [hub] at h
    simp at h
    rw [← h]
    simp
  | none =>
    rw [hub] at h
    cases hgr : pr.group with
    | none =>
      rw [hgr] at h
      simp at h
    | some g =>
      rw [hgr] at h
      simp at h
      rw [← h]
      simp

/-- C6: on privileges carrying at most one principal and no empty group
name, the acl property returns exactly one Allow entry per privilege whose
principal resolves to a key, in list order and with the exact permission
set, skipping privileges with an unresolvable user identity and no group,
followed by exactly one trailing DENY_ALL as the last element. -/
theorem c6_theorem (privs : List Privilege)
    (h1 : ∀ pr ∈ privs, ¬(pr.user.isSome ∧ pr.group.isSome))
    (h2 : ∀ pr ∈ privs, pr.group ≠ some "") :
    buildAcl privs = privs.filterMap claimAclEntry ++ [AclEntry.denyAll] ∧
    (buildAcl privs).count AclEntry.denyAll = 1 := by
  have hmain : buildAcl privs = privs.filterMap claimAclEntry ++ [AclEntry.denyAll] := by
    unfold buildAcl
    rw [foldl_aclStep, List.nil_append]
    congr 1
    exact filterMap_congr_mem privs codeAclEntry claimAclEntry
      (fun pr hpr => codeAclEntry_eq_claim pr (h1 pr hpr) (h2 pr hpr))
  refine ⟨hmain, ?_⟩
  rw [hmain, List.count_append]
  have hz : (privs.filterMap claimAclEntry).count AclEntry.denyAll = 0 := by
    rw [List.count_eq_zero]
    intro hmem
    obtain ⟨pr, hpr, hec⟩ := List.mem_filterMap.mp hmem
    exact claimAclEntry_allow pr _ hec rfl
  rw [hz]
  rfl

/-- Witness for C6: one user grant and one group grant produce their two
Allow entries in order plus the single trailing DENY_ALL. -/
theorem c6_witness :
    buildAcl privsW = privsW.filterMap claimAclEntry ++ [AclEntry.denyAll] ∧
    (buildAcl privsW).count AclEntry.denyAll = 1 :=
  c6_theorem privsW (by decide) (by decide)

/-- Helper: searching an appended list when the first part has no match. -/
theorem find?_append_of_none {α : Type} (q : α → Bool) (l1 l2 : List α)
    (h : l1.find? q = none) : (l1 ++ l2).find? q = l2.find? q := by
  induction l1 with
  | nil => simp
  | cons a t ih =>
    cases hq : q a with
    | true =>
      rw [List.find?_cons_of_pos _ hq] at h
      exact absurd h (by simp)
    | false =>
      have hq2 : ¬(q a = true) := by simp [hq]
      rw [List.find?_cons_of_neg _ hq2] at h
      rw [List.cons_append, List.find?_cons_of_neg _ hq2]
      exact ih h

/-- Helper: a list without a match has a zero match count. -/
theorem countP_eq_zero_of_find?_none {α : Type} (q : α → Bool) (l : List α)
    (h : l.find? q = none) : l.countP q = 0 := by
  rw [List.countP_eq_zero]
  intro a ha
  exact List.find?_eq_none.mp h a ha

/-- C7: starting from a privilege list holding at most one privilege
matching the principal, two consecutive calls to get_privilege with creation
requested return the same privilege and the same document, and leave exactly
one privilege matching that principal in the list: the second call finds the
existing record instead of appending a duplicate. -/
theorem c7_theorem (d : Doc) (p : Principal) (hc : creatable p = true)
    (hinv : d.privileges.countP (matchesPriv p) ≤ 1) :
    ∃ (d1 : Doc) (priv1 : Privilege),
      get_privilege d p true = .ok (d1, some priv1) ∧
      get_privilege d1 p true = .ok (d1, some priv1) ∧
      d1.privileges.countP (matchesPriv p) = 1 := by
  cases hfind : findPriv d.privileges p with
  | some priv =>
    refine ⟨d, priv, ?_, ?_, ?_⟩
    · simp [get_privilege, hfind]
    · simp [get_privilege, hfind]
    · have hp : matchesPriv p priv = true := List.find?_some hfind
      have hmem : priv ∈ d.privileges := List.mem_of_find?_eq_some hfind
      have hpos : 0 < d.privileges.countP (matchesPriv p) :=
        List.countP_pos_iff.mpr ⟨priv, hmem, hp⟩
      omega
  | none =>
    have hzero : d.privileges.countP (matchesPriv p) = 0 :=
      countP_eq_zero_of_find?_none _ _ hfind
    cases p with
    | user pk =>
      cases pk with
      | none => simp [creatable] at hc
      | some k =>
        have hmatch : matchesPriv (Principal.user (some k))
            ⟨some (UserRef.oid k), none, []⟩ = true := by
          simp [matchesPriv]
        have hfind2 : findPriv (d.privileges ++ [⟨some (UserRef.oid k), none, []⟩])
            (Principal.user (some k)) = some ⟨some (UserRef.oid k), none, []⟩ := by
          unfold findPriv at hfind ⊢
          rw [find?_append_of_none _ _ _ hfind]
          exact List.find?_cons_of_pos _ hmatch
        refine ⟨{ d with privileges := d.privileges ++ [⟨some (UserRef.oid k), none, []⟩] },
          ⟨some (UserRef.oid k), none, []⟩, ?_, ?_, ?_⟩
        · simp [get_privilege, hfind, truthyOpt]
        · simp [get_privilege, hfind2]
        · simp [List.countP_append, hzero, List.countP_cons, hmatch]
    | group g =>
      have hg : g ≠ "" := by simpa [creatable] using hc
      have hmatch : matchesPriv (Principal.group g) ⟨none, some g, []⟩ = true := by
        simp [matchesPriv]
      have hfind2 : findPriv (d.privileges ++ [⟨none, some g, []⟩])
          (Principal.group g) = some ⟨none, some g, []⟩ := by
        unfold findPriv at hfind ⊢
        rw [find?_append_of_none _ _ _ hfind]
        exact List.find?_cons_of_pos _ hmatch
      refine ⟨{ d with privileges := d.privileges ++ [⟨none, some g, []⟩] },
        ⟨none, some g, []⟩, ?_, ?_, ?_⟩
      · simp [get_privilege, hfind, truthyOpt, hg]
      · simp [get_privilege, hfind2]
      · simp [List.countP_append, hzero, List.countP_cons, hmatch]

/-- Witness for C7 at a concrete input, starting from an empty privilege
list. -/
theorem c7_witness :
    ∃ (d1 : Doc) (priv1 : Privilege),
      get_privilege dEmpty (Principal.user (some 5)) true = .ok (d1, some priv1) ∧
      get_privilege d1 (Principal.user (some 5)) true = .ok (d1, some priv1) ∧
      d1.privileges.countP (matchesPriv (Principal.user (some 5))) = 1 :=
  c7_theorem dEmpty (Principal.user (some 5)) (by decide) (by decide)

end MPriv
